import Mathlib

/-!
Shallow embedding of the aurora-alert forecast parser.

The embedded code is `parse_forecast` and the guard of `send_email_alert`
from `src/aurora.py` (the parsing logic in `src/script.py` is identical
line for line apart from logging).  A bulletin is modelled as its list of
lines, each line being a list of characters (`splitlines` is treated as
pre-processing of the opaque `BulletinText` input).  Timezone conversion
(`astimezone`) changes only the wall-clock rendering of an instant, never
the instant itself, so records carry their UTC instants.

Python-specific behaviours are modelled explicitly:
  * `str.split()` (split on whitespace runs), `str.split(sep)`,
    `str.strip()`, substring tests;
  * `int(float(tok))` as decimal/scientific parsing to a rational followed
    by truncation toward zero (the model's float grammar covers finite
    decimal and exponent literals; `inf`/`nan`/underscore forms and
    non-ASCII digits are outside the model);
  * `datetime.date` construction as a validity-checked smart constructor
    (`ValueError` becomes `Option.none`);
  * `datetime.time(hour=h)` validation `h ≤ 23`;
  * `timedelta(hours=3)` addition as calendar roll-over on (date, hour).
-/

namespace Aurora

/-- Whitespace test used by `str.strip()` / `str.split()`. -/
def isWs (c : Char) : Bool := c.isWhitespace

/-- Lower-case an ASCII letter (Python's strptime matches month names
case-insensitively). -/
def lowerChar (c : Char) : Char :=
  if 'A' ≤ c ∧ c ≤ 'Z' then Char.ofNat (c.toNat + 32) else c

/-- Value of a list of decimal digit characters, as `int()` computes it. -/
def digitsToNat (l : List Char) : Nat :=
  l.foldl (fun n c => 10 * n + (c.toNat - 48)) 0

/-- Python `str.isdigit()` restricted to ASCII: non-empty and all digits. -/
def pyIsDigit (l : List Char) : Bool :=
  !l.isEmpty && l.all (·.isDigit)

/-- Drop leading whitespace (`lstrip`). -/
def trimL (l : List Char) : List Char := l.dropWhile isWs

/-- Drop trailing whitespace (`rstrip`). -/
def trimR (l : List Char) : List Char := (trimL l.reverse).reverse

/-- Python `str.strip()`. -/
def trim (l : List Char) : List Char := trimL (trimR l)

/-- Accumulator loop behind `splitWs`. -/
def splitWsAux : List Char → List Char → List (List Char)
  | [], acc => if acc.isEmpty then [] else [acc.reverse]
  | c :: cs, acc =>
    if isWs c then
      if acc.isEmpty then splitWsAux cs [] else acc.reverse :: splitWsAux cs []
    else
      splitWsAux cs (c :: acc)

/-- Python `str.split()` with no argument: split on whitespace runs,
discarding empty fields. -/
def splitWs (l : List Char) : List (List Char) := splitWsAux l []

/-- Accumulator loop behind `splitOnChar`. -/
def splitOnCharAux (sep : Char) : List Char → List Char → List (List Char)
  | [], acc => [acc.reverse]
  | c :: cs, acc =>
    if c = sep then acc.reverse :: splitOnCharAux sep cs []
    else splitOnCharAux sep cs (c :: acc)

/-- Python `str.split(sep)` for a one-character separator: keeps empty
fields. -/
def splitOnChar (sep : Char) (l : List Char) : List (List Char) :=
  splitOnCharAux sep l []

/-- Contiguous-substring test (Python `pat in s`). -/
def isSubstr (pat : List Char) : List Char → Bool
  | [] => pat.isEmpty
  | c :: cs => pat.isPrefixOf (c :: cs) || isSubstr pat cs

/-- The part of `s` before the first occurrence of `pat`
(Python `s.split(pat)[0]` for non-empty `pat`). -/
def takeUntilSub (pat : List Char) : List Char → List Char
  | [] => []
  | c :: cs => if pat.isPrefixOf (c :: cs) then [] else c :: takeUntilSub pat cs

/-- Lexicographic strict order on strings by code point, as Python compares
`str` values. -/
def strLtB : List Char → List Char → Bool
  | [], [] => false
  | [], _ :: _ => true
  | _ :: _, [] => false
  | a :: as, b :: bs => if a < b then true else if a = b then strLtB as bs else false

/-- Non-strict string order derived from `strLtB`. -/
def strLeB (a b : List Char) : Bool := !(strLtB b a)

/-- `month_str_to_int` from the source:
`datetime.strptime(month_str.strip(), "%b").month`, i.e. the stripped
token must be exactly a 3-letter English month abbreviation
(case-insensitive); any other input raises `ValueError`, modelled as
`none`. -/
def month_str_to_int (s : List Char) : Option Nat :=
  let t := (trim s).map lowerChar
  if t = "jan".data then some 1
  else if t = "feb".data then some 2
  else if t = "mar".data then some 3
  else if t = "apr".data then some 4
  else if t = "may".data then some 5
  else if t = "jun".data then some 6
  else if t = "jul".data then some 7
  else if t = "aug".data then some 8
  else if t = "sep".data then some 9
  else if t = "oct".data then some 10
  else if t = "nov".data then some 11
  else if t = "dec".data then some 12
  else none

/-- Gregorian leap-year rule (as `datetime.date` uses). -/
def isLeap (y : Nat) : Bool :=
  (y % 4 = 0 && y % 100 ≠ 0) || y % 400 = 0

/-- Number of days of month `m` (1–12) of year `y`. -/
def daysInMonth (y m : Nat) : Nat :=
  if m = 2 then (if isLeap y then 29 else 28)
  else if m = 4 ∨ m = 6 ∨ m = 9 ∨ m = 11 then 30
  else 31

/-- Number of days of year `y`. -/
def daysInYear (y : Nat) : Nat := if isLeap y then 366 else 365

/-- A calendar date, mirroring `datetime.date`. -/
structure Date where
  year : Nat
  month : Nat
  day : Nat
deriving DecidableEq

/-- The validity invariant `datetime.date` enforces on month and day
(the year bound is checked separately in `mkDate`). -/
def ValidDate (d : Date) : Prop :=
  1 ≤ d.month ∧ d.month ≤ 12 ∧ 1 ≤ d.day ∧ d.day ≤ daysInMonth d.year d.month

instance (d : Date) : Decidable (ValidDate d) := by
  unfold ValidDate; infer_instance

/-- `datetime.date(y, m, d)`: validity-checked construction; a failed check
raises `ValueError`, modelled as `none`. -/
def mkDate (y m d : Nat) : Option Date :=
  if 1 ≤ y ∧ y ≤ 9999 ∧ 1 ≤ m ∧ m ≤ 12 ∧ 1 ≤ d ∧ d ≤ daysInMonth y m then
    some ⟨y, m, d⟩
  else none

/-- Successor day in the Gregorian calendar. -/
def nextDay (d : Date) : Date :=
  if d.day < daysInMonth d.year d.month then ⟨d.year, d.month, d.day + 1⟩
  else if d.month < 12 then ⟨d.year, d.month + 1, 1⟩
  else ⟨d.year + 1, 1, 1⟩

/-- A UTC instant at whole-hour resolution (`datetime.combine(date,
time(hour=h), tzinfo=UTC)`); minutes are always zero in the program. -/
structure DateTime where
  date : Date
  hour : Nat
deriving DecidableEq

/-- `+ timedelta(hours=3)` on a whole-hour UTC instant. -/
def addHours3 (dt : DateTime) : DateTime :=
  if dt.hour + 3 ≤ 23 then ⟨dt.date, dt.hour + 3⟩
  else ⟨nextDay dt.date, dt.hour + 3 - 24⟩

/-- Sum of the day counts of months `1..k` of year `y`. -/
def monthsSum (y : Nat) : Nat → Nat
  | 0 => 0
  | k + 1 => monthsSum y k + daysInMonth y (k + 1)

/-- Days contributed by the full months before month `m` in year `y`. -/
def daysBeforeMonth (y m : Nat) : Nat := monthsSum y (m - 1)

/-- Leap years in `[0, y)`: multiples of 4, minus multiples of 100, plus
multiples of 400 (closed form, so day numbers of modern years evaluate
without deep recursion). -/
def leapsBefore (y : Nat) : Nat :=
  (y + 3) / 4 - (y + 99) / 100 + (y + 399) / 400

/-- Days contributed by the full years before year `y`. -/
def daysBeforeYear (y : Nat) : Nat := 365 * y + leapsBefore y

/-- Linear day number of a date (an arbitrary fixed epoch; only
differences matter). -/
def dayNumber (d : Date) : Nat :=
  daysBeforeYear d.year + daysBeforeMonth d.year d.month + d.day

/-- Linear hour number of an instant: the absolute-time view of a
`DateTime`. -/
def absHours (dt : DateTime) : Nat := 24 * dayNumber dt.date + dt.hour

/-- Exact value of a parsed float literal: `num / 10 ^ scale`.  The pair
representation keeps every parsing step inside kernel-computable `Int`/
`Nat` arithmetic; `ScaledDec.val` is the rational it denotes. -/
structure ScaledDec where
  num : Int
  scale : Nat
deriving DecidableEq

/-- The rational value a `ScaledDec` denotes. -/
def ScaledDec.val (p : ScaledDec) : ℚ := (p.num : ℚ) / 10 ^ p.scale

/-- Exponent part of a float literal: after the mantissa, either nothing, or
`e`/`E`, an optional sign, and at least one digit, consuming all input.
A positive exponent multiplies the mantissa, a negative one deepens the
scale. -/
def applyExpo (n : Nat) (fracLen : Nat) : List Char → Option ScaledDec
  | [] => some ⟨(n : Int), fracLen⟩
  | e :: r =>
    if e = 'e' ∨ e = 'E' then
      match r with
      | '+' :: ds =>
        if pyIsDigit ds then some ⟨(n * 10 ^ digitsToNat ds : Nat), fracLen⟩
        else none
      | '-' :: ds =>
        if pyIsDigit ds then some ⟨(n : Int), fracLen + digitsToNat ds⟩
        else none
      | ds =>
        if pyIsDigit ds then some ⟨(n * 10 ^ digitsToNat ds : Nat), fracLen⟩
        else none
    else none

/-- Unsigned mantissa of a float literal: `digits [. digits] [exponent]`,
with at least one digit in the mantissa. -/
def parseUnsignedFloat (s : List Char) : Option ScaledDec :=
  let intPart := s.takeWhile (·.isDigit)
  let rest := s.dropWhile (·.isDigit)
  match rest with
  | '.' :: r2 =>
    let fracPart := r2.takeWhile (·.isDigit)
    let r3 := r2.dropWhile (·.isDigit)
    if intPart.isEmpty && fracPart.isEmpty then none
    else applyExpo (digitsToNat (intPart ++ fracPart)) fracPart.length r3
  | r2 =>
    if intPart.isEmpty then none
    else applyExpo (digitsToNat intPart) 0 r2

/-- Python `float(tok)` for a whitespace-free token, modelled exactly:
optional sign, then an unsigned decimal/scientific literal.  (`inf`, `nan`
and underscore separators are outside the model; the program feeds the
result to `int(...)`, and the claims address only finite literals.) -/
def parseFloat? (s : List Char) : Option ScaledDec :=
  match s with
  | '+' :: rest => parseUnsignedFloat rest
  | '-' :: rest => (parseUnsignedFloat rest).map (fun p => ⟨-p.num, p.scale⟩)
  | _ => parseUnsignedFloat s

/-- Python `int(x)` on a finite float value `num / 10 ^ scale`: truncation
toward zero, computed by sign-split natural division.  `pyTrunc_eq_floor`
below identifies it with `⌊ScaledDec.val p⌋` on non-negative inputs. -/
def pyTrunc (p : ScaledDec) : Int :=
  if 0 ≤ p.num then ((p.num.toNat / 10 ^ p.scale : Nat) : Int)
  else -(((-p.num).toNat / 10 ^ p.scale : Nat) : Int)

/-- `int(float(kp_str))` from line 217 of `src/aurora.py`; `none` models a
`ValueError` from either conversion. -/
def parseKp? (tok : List Char) : Option Int := (parseFloat? tok).map pyTrunc

/-- The parser's output unit: the tuple appended at line 224 of
`src/aurora.py`.  `astimezone(target_tz)` only changes the wall-clock
rendering of each instant, never the instant itself, so the record carries
the two UTC instants together with the integer Kp value. -/
structure Record where
  utcStart : DateTime
  utcEnd : DateTime
  kp : Int
deriving DecidableEq

/-- The anchored pattern `re.match(r"\d{2}-\d{2}UT", line)` from line 202:
two digits, a dash, two digits, then `UT`, at the start of the line. -/
def rowPat : List Char → Bool
  | c0 :: c1 :: c2 :: c3 :: c4 :: c5 :: c6 :: _ =>
    c0.isDigit && c1.isDigit && c2 = '-' && c3.isDigit && c4.isDigit &&
      c5 = 'U' && c6 = 'T'
  | _ => false

/-- Lines 216–226 of `src/aurora.py` for one value token of a data row:
parse the token (`ValueError` from `int(float(...))` skips the token),
compare against the threshold, validate the hour (`dt_time(hour=...)`
raises `ValueError`, also caught per token) and build the record.  The
paired `d` is the forecast date of the token's column. -/
def processTok (threshold : Int) (hour : Nat) (d : Date) (tok : List Char) :
    Option Record :=
  match parseKp? tok with
  | none => none
  | some kp =>
    if threshold ≤ kp then
      if hour ≤ 23 then
        some ⟨⟨d, hour⟩, addHours3 ⟨d, hour⟩, kp⟩
      else none
    else none

/-- Lines 200–226 of `src/aurora.py` for one line after the date header:
strip; skip blank lines and lines not matching `rowPat`; split into the
time label and the value tokens; skip rows with fewer value tokens than
resolved dates; read the start hour from the label's first two characters
(digits by `rowPat`, so `int` cannot fail); process each value token
against the forecast date of its column, stopping after the last column
(`if i >= len(parsed_dates): break`). -/
def processRow (dates : List Date) (threshold : Int) (raw : List Char) :
    List Record :=
  let l := trim raw
  if l.isEmpty then []
  else if !rowPat l then []
  else
    match splitWs l with
    | [] => []
    | timeTok :: kpToks =>
      if kpToks.length < dates.length then []
      else
        let hour := digitsToNat (timeTok.take 2)
        ((kpToks.take dates.length).zip dates).filterMap
          (fun p => processTok threshold hour p.2 p.1)

/-- `%H%M` against a digit token: the regex `(\d{1,2})(\d{1,2})` matches
greedily, so a 3–4 digit token splits two digits for the hour and the rest
for the minutes, and a 2 digit token splits one and one; values are then
range-checked. -/
def validHM (hm : List Char) : Bool :=
  pyIsDigit hm && 2 ≤ hm.length && hm.length ≤ 4 &&
    (let cut := if 3 ≤ hm.length then 2 else 1
     digitsToNat (hm.take cut) ≤ 23 && digitsToNat (hm.drop cut) ≤ 59)

/-- `datetime.strptime(s, "%Y %b %d %H%M")`, modelled at whitespace-token
granularity: year of 1–4 digits, month abbreviation, day of 1–2 digits
valid for that month, hour/minute block.  Returns the year. -/
def strptimeYMDHM (s : List Char) : Option Nat :=
  match splitWs s with
  | [ytok, mtok, dtok, hmtok] =>
    if pyIsDigit ytok && ytok.length ≤ 4 then
      match month_str_to_int mtok with
      | some m =>
        let y := digitsToNat ytok
        let d := digitsToNat dtok
        if pyIsDigit dtok && dtok.length ≤ 2 && validHM hmtok &&
            1 ≤ y && y ≤ 9999 && 1 ≤ d && d ≤ daysInMonth y m then
          some y
        else none
      | none => none
    else none
  | _ => none

/-- `datetime.strptime(s, "%b %d %H%M %Y")`, the fallback layout of lines
132–135, modelled like `strptimeYMDHM`. -/
def strptimeMDHMY (s : List Char) : Option Nat :=
  match splitWs s with
  | [mtok, dtok, hmtok, ytok] =>
    if pyIsDigit ytok && ytok.length ≤ 4 then
      match month_str_to_int mtok with
      | some m =>
        let y := digitsToNat ytok
        let d := digitsToNat dtok
        if pyIsDigit dtok && dtok.length ≤ 2 && validHM hmtok &&
            1 ≤ y && y ≤ 9999 && 1 ≤ d && d ≤ daysInMonth y m then
          some y
        else none
      | none => none
    else none
  | _ => none

/-- Lines 128–138 of `src/aurora.py` applied to one `:Issued:` line: take
the third `:`-separated field, strip it, keep the part before `" UTC"`,
and try the two timestamp layouts. -/
def parseIssuedLine (line : List Char) : Option Nat :=
  match (splitOnChar ':' line)[2]? with
  | none => none
  | some p =>
    let s := takeUntilSub " UTC".data (trim p)
    match strptimeYMDHM s with
    | some y => some y
    | none => strptimeMDHMY s

/-- Lines 124–142 of `src/aurora.py`: scan for a line starting with
`:Issued:` and return the first successfully parsed issuance year; any
failure (missing field, unparsable timestamp) continues the scan; if no
line yields a year, fall back to the current UTC year `nowYear`. -/
def issuedYear (lines : List (List Char)) (nowYear : Nat) : Nat :=
  match lines with
  | [] => nowYear
  | l :: ls =>
    if ":Issued:".data.isPrefixOf l then
      match parseIssuedLine l with
      | some y => y
      | none => issuedYear ls nowYear
    else issuedYear ls nowYear

/-- The marker substring of line 148. -/
def headerMarker : List Char := "NOAA Kp index breakdown".data

/-- One iteration of the lookahead loop of lines 149–167 at line index
`idx`: `none` means a blank line (`continue`), `some none` means the scan
for this marker stops (`break`: end of text, too few tokens, or a first
token that is not a month), `some (some (idx, parts))` means the date
header was found. -/
def windowCheck (lines : List (List Char)) (idx : Nat) :
    Option (Option (Nat × List (List Char))) :=
  match lines[idx]? with
  | none => some none
  | some raw =>
    let l := trim raw
    if l.isEmpty then none
    else
      let parts := splitWs l
      if 3 ≤ parts.length then
        match parts with
        | p0 :: _ =>
          if (month_str_to_int p0).isSome then some (some (idx, parts))
          else some none
        | [] => some none
      else some none

/-- The lookahead loop of lines 149–167: examine offsets 1, 2, 3 after the
marker line `i`, skipping blank lines, and stop at the first non-blank
line (accepting it only if it looks like a date header). -/
def scanWindow (lines : List (List Char)) (i : Nat) :
    Option (Nat × List (List Char)) :=
  match windowCheck lines (i + 1) with
  | some r => r
  | none =>
    match windowCheck lines (i + 2) with
    | some r => r
    | none =>
      match windowCheck lines (i + 3) with
      | some r => r
      | none => none

/-- The outer loop of lines 147–169 from line index `i`: at each line
containing `headerMarker`, run the lookahead window; if it fails, keep
scanning later lines for another marker. -/
def findHeaderAux (all : List (List Char)) :
    List (List Char) → Nat → Option (Nat × List (List Char))
  | [], _ => none
  | l :: rest, i =>
    if isSubstr headerMarker l then
      match scanWindow all i with
      | some r => some r
      | none => findHeaderAux all rest (i + 1)
    else findHeaderAux all rest (i + 1)

/-- Header discovery over the whole bulletin: the index of the date-header
line and its whitespace tokens, or `none` (line 171's failure path). -/
def findHeader (lines : List (List Char)) : Option (Nat × List (List Char)) :=
  findHeaderAux lines lines 0

/-- The `while` loop of lines 178–192: consume a month token and a digit
day token per date, applying the December→January year roll-over
independently per column, and build each `datetime.date` (whose
`ValueError` aborts the whole loop, modelled by `none`); stop after three
dates; at the end exactly three must have been collected (line 193). -/
def parseDatesGo (baseYear nowMonth : Nat) :
    List (List Char) → List Date → Option (List Date)
  | [], acc => if acc.length = 3 then some acc else none
  | [_], acc =>
    if acc.length = 3 then some acc else none
  | mt :: dt :: rest2, acc =>
    if acc.length = 3 then some acc
    else
      match month_str_to_int mt with
      | none => none
      | some m =>
        if pyIsDigit dt then
          match mkDate
              (if nowMonth = 12 ∧ m = 1 then baseYear + 1 else baseYear)
              m (digitsToNat dt) with
          | none => none
          | some d => parseDatesGo baseYear nowMonth rest2 (acc ++ [d])
        else none

/-- The three forecast dates a bulletin resolves to: header discovery
followed by date-header decoding, with the base year from the issuance
scan. -/
def resolvedDates (lines : List (List Char)) (nowYear nowMonth : Nat) :
    Option (List Date) :=
  match findHeader lines with
  | none => none
  | some (_, toks) => parseDatesGo (issuedYear lines nowYear) nowMonth toks []

/-- `parse_forecast` from `src/aurora.py` (lines 117–227).  `lines` is the
bulletin's `splitlines()`, `threshold` the configured `KP_THRESHOLD`, and
`nowYear`/`nowMonth` the current UTC year and month (`datetime.now(UTC)`),
passed explicitly.  Output records are in the discovery order of the
source's `high_kp_periods` list. -/
def parse_forecast (lines : List (List Char)) (threshold : Int)
    (nowYear nowMonth : Nat) : List Record :=
  let baseYear := issuedYear lines nowYear
  match findHeader lines with
  | none => []
  | some (hidx, toks) =>
    match parseDatesGo baseYear nowMonth toks [] with
    | none => []
    | some dates =>
      ((lines.drop (hidx + 1)).map (processRow dates threshold)).flatten

/-- Stable insertion of `a` into a sorted list: `a` goes before the first
element it compares `le` to, so among equal keys earlier elements stay
first. -/
def insSorted (le : Record → Record → Bool) (a : Record) :
    List Record → List Record
  | [] => [a]
  | b :: bs => if le a b then a :: b :: bs else b :: insSorted le a bs

/-- Stable ascending sort (Python's `list.sort` is stable and ascending);
structural recursion keeps it kernel-computable. -/
def insSort (le : Record → Record → Bool) : List Record → List Record
  | [] => []
  | a :: as => insSorted le a (insSort le as)

/-- Stable insertion for the recipient-address sort. -/
def insSortedStr (a : List Char) :
    List (List Char) → List (List Char)
  | [] => [a]
  | b :: bs => if strLeB a b then a :: b :: bs else b :: insSortedStr a bs

/-- Ascending sort of strings, as Python's `sorted` on `str` values. -/
def insSortStr : List (List Char) → List (List Char)
  | [] => []
  | a :: as => insSortedStr a (insSortStr as)

/-- Outcome of `send_email_alert` (lines 229–284 of `src/aurora.py`).
`noSend` is the guard path of lines 231–233: no subject, no body, and no
SMTP dispatch.  `noRecipients` is the error return of lines 244–246.
`dispatched` models a message handed to SMTP: the maximum Kp used in the
subject line, the threshold quoted in the body, the chronologically sorted
periods enumerated in the body, and the de-duplicated, sorted envelope
recipient list.  (The `strftime` rendering of each period into text is
abstracted: the message is modelled by its content.) -/
inductive SendOutcome where
  | noSend : SendOutcome
  | noRecipients : SendOutcome
  | dispatched (subjectMaxKp : Int) (bodyThreshold : Int)
      (bodyPeriods : List Record) (toAddrs : List (List Char)) : SendOutcome
deriving DecidableEq

/-- Comparison key of line 254 (`key=lambda x: x[0]`): periods sort by
start instant; a fixed-offset timezone shift preserves instant order, so
the UTC hour number is the key. -/
def recLeB (a b : Record) : Bool := absHours a.utcStart ≤ absHours b.utcStart

/-- `send_email_alert` from `src/aurora.py`: return immediately when no
period qualifies; otherwise build the BCC list from the comma-separated
recipient string, prepend the sender, de-duplicate and sort
(`sorted(list(set(...)))`), compute the maximum Kp for the subject and
sort the periods for the body. -/
def send_email_alert (threshold : Int) (sender recipientString : List Char)
    (periods : List Record) : SendOutcome :=
  if periods.isEmpty then .noSend
  else
    let bcc := ((splitOnChar ',' recipientString).map trim).filter
      (fun e => !e.isEmpty)
    let allTo := insSortStr ((sender :: bcc).dedup)
    if allTo.isEmpty then .noRecipients
    else
      let maxKp := (periods.map Record.kp).foldl max
        (match periods with | [] => 0 | p :: _ => p.kp)
      .dispatched maxKp threshold (insSort recLeB periods) allTo

/-- Chronological (lexicographic) order on calendar dates. -/
def dateLeB (a b : Date) : Bool :=
  a.year < b.year || (a.year = b.year && (a.month < b.month ||
    (a.month = b.month && a.day ≤ b.day)))

/-- Modelled from the spec (§4.2 step 2): the predicate the spec says the
selected window line satisfies — non-blank, whitespace-separated tokens
beginning with a valid month abbreviation and numbering at least 3.  Used
to compare the spec's window rule with the code's. -/
def isDateHeaderCandidate (l : List Char) : Bool :=
  match splitWs l with
  | [] => false
  | p0 :: rest => 3 ≤ (p0 :: rest).length && (month_str_to_int p0).isSome

theorem eval_month : month_str_to_int " Dec ".data = some 12 := by decide

theorem eval_split : splitWs "  Oct 10  Oct 11 ".data =
    ["Oct".data, "10".data, "Oct".data, "11".data] := by decide

theorem eval_float1 : parseKp? "4.7".data = some 4 := by decide

theorem eval_float2 : parseKp? "5".data = some 5 := by decide

theorem eval_float3 : parseKp? "-2.5".data = some (-2) := by decide

theorem eval_float4 : parseKp? "abc".data = none := by decide

theorem eval_float5 : parseKp? "1e2".data = some 100 := by decide

theorem eval_float6 : parseKp? ".5".data = some 0 := by decide

theorem eval_float7 : parseKp? "5.".data = some 5 := by decide

theorem eval_float8 : parseKp? "".data = none := by decide

theorem eval_float9 : parseKp? "5a".data = none := by decide

theorem eval_issued :
    issuedYear [":Issued: 2024 Oct 12 0030 UTC".data] 1999 = 2024 := by decide

theorem eval_header :
    findHeader ["x".data, "NOAA Kp index breakdown".data,
      "             Oct 12     Oct 13     Oct 14".data] =
    some (2, ["Oct".data, "12".data, "Oct".data, "13".data, "Oct".data,
      "14".data]) := by decide

theorem eval_parse :
    parse_forecast
      [":Issued: 2024 Oct 12 0030 UTC".data,
       "NOAA Kp index breakdown Oct 12-Oct 14 2024".data,
       "             Oct 12     Oct 13     Oct 14".data,
       "00-03UT       3          4          7".data,
       "03-06UT       5.67       2          1".data]
      5 1999 10 =
    [⟨⟨⟨2024, 10, 14⟩, 0⟩, ⟨⟨2024, 10, 14⟩, 3⟩, 7⟩,
     ⟨⟨⟨2024, 10, 12⟩, 3⟩, ⟨⟨2024, 10, 12⟩, 6⟩, 5⟩] := by decide

theorem eval_send :
    send_email_alert 5 "a@b.c".data "d@e.f, a@b.c,".data
      [⟨⟨⟨2024, 10, 14⟩, 0⟩, ⟨⟨2024, 10, 14⟩, 3⟩, 7⟩,
       ⟨⟨⟨2024, 10, 12⟩, 3⟩, ⟨⟨2024, 10, 12⟩, 6⟩, 5⟩] =
    SendOutcome.dispatched 7 5
      [⟨⟨⟨2024, 10, 12⟩, 3⟩, ⟨⟨2024, 10, 12⟩, 6⟩, 5⟩,
       ⟨⟨⟨2024, 10, 14⟩, 0⟩, ⟨⟨2024, 10, 14⟩, 3⟩, 7⟩]
      ["a@b.c".data, "d@e.f".data] := by decide

theorem daysBeforeYear_succ (y : Nat) :
    daysBeforeYear (y + 1) = daysBeforeYear y + daysInYear y := by
  have h : isLeap y = true ↔ ((y % 4 = 0 ∧ y % 100 ≠ 0) ∨ y % 400 = 0) := by
    simp [isLeap]
  by_cases hl : isLeap y = true
  · rw [daysInYear, if_pos hl]
    rw [h] at hl
    unfold daysBeforeYear leapsBefore
    omega
  · rw [daysInYear, if_neg hl]
    rw [h] at hl
    unfold daysBeforeYear leapsBefore
    omega

theorem monthsSum_twelve (y : Nat) : monthsSum y 12 = daysInYear y := by
  by_cases hl : isLeap y = true <;>
    simp [monthsSum, daysInMonth, daysInYear, hl]

theorem dayNumber_nextDay {d : Date} (hv : ValidDate d) :
    dayNumber (nextDay d) = dayNumber d + 1 := by
  obtain ⟨hm1, hm12, hd1, hdim⟩ := hv
  unfold nextDay
  by_cases hlt : d.day < daysInMonth d.year d.month
  · rw [if_pos hlt]
    simp only [dayNumber]
    omega
  · rw [if_neg hlt]
    have hday : d.day = daysInMonth d.year d.month := by omega
    by_cases hm : d.month < 12
    · rw [if_pos hm]
      obtain ⟨k, hk⟩ : ∃ k, d.month = k + 1 := ⟨d.month - 1, by omega⟩
      have hsum : monthsSum d.year (k + 1) =
          monthsSum d.year k + daysInMonth d.year (k + 1) := rfl
      rw [hk] at hday
      simp only [dayNumber, daysBeforeMonth, hk, Nat.add_sub_cancel]
      omega
    · rw [if_neg hm]
      have hm' : d.month = 12 := by omega
      have h31 : daysInMonth d.year 12 = 31 := by simp [daysInMonth]
      have hsum : monthsSum d.year 12 =
          monthsSum d.year 11 + daysInMonth d.year 12 := rfl
      have htw := monthsSum_twelve d.year
      have hy := daysBeforeYear_succ d.year
      have hz : monthsSum (d.year + 1) 0 = 0 := rfl
      rw [hm'] at hday
      simp only [dayNumber, daysBeforeMonth, hm']
      norm_num
      omega

theorem absHours_addHours3 {d : Date} {h : Nat} (hv : ValidDate d)
    (hh : h ≤ 23) :
    absHours (addHours3 ⟨d, h⟩) = absHours ⟨d, h⟩ + 3 := by
  unfold addHours3 absHours
  by_cases hc : h + 3 ≤ 23
  · rw [if_pos hc]
    show 24 * dayNumber d + (h + 3) = 24 * dayNumber d + h + 3
    omega
  · rw [if_neg hc]
    show 24 * dayNumber (nextDay d) + (h + 3 - 24) = 24 * dayNumber d + h + 3
    rw [dayNumber_nextDay hv]
    omega

theorem processTok_eq_some {t : Int} {h : Nat} {d : Date} {tok : List Char}
    {r : Record} (he : processTok t h d tok = some r) :
    parseKp? tok = some r.kp ∧ t ≤ r.kp ∧ h ≤ 23 ∧
    r.utcStart = ⟨d, h⟩ ∧ r.utcEnd = addHours3 ⟨d, h⟩ := by
  unfold processTok at he
  split at he
  · exact absurd he (by simp)
  · rename_i kp hk
    split at he
    · split at he
      · rename_i h1 h2
        injection he with he
        subst he
        exact ⟨hk, h1, h2, rfl, rfl⟩
      · exact absurd he (by simp)
    · exact absurd he (by simp)

theorem mem_processRow {dates : List Date} {t : Int} {raw : List Char}
    {r : Record} (hr : r ∈ processRow dates t raw) :
    ∃ h d tok, d ∈ dates ∧ processTok t h d tok = some r := by
  simp only [processRow] at hr
  split at hr
  · exact absurd hr (by simp)
  · split at hr
    · exact absurd hr (by simp)
    · split at hr
      · exact absurd hr (by simp)
      · split at hr
        · exact absurd hr (by simp)
        · rw [List.mem_filterMap] at hr
          obtain ⟨⟨tok, d⟩, hp, he⟩ := hr
          exact ⟨_, d, tok, (List.of_mem_zip hp).2, he⟩

theorem mkDate_eq_some {y m day : Nat} {d : Date}
    (h : mkDate y m day = some d) :
    d = ⟨y, m, day⟩ ∧ ValidDate d := by
  unfold mkDate at h
  split at h
  · rename_i hc
    injection h with h
    subst h
    exact ⟨rfl, hc.2.2.1, hc.2.2.2.1, hc.2.2.2.2.1, hc.2.2.2.2.2⟩
  · cases h

theorem parseDatesGo_length {baseYear nowMonth : Nat} :
    ∀ {toks : List (List Char)} {acc ds : List Date},
      parseDatesGo baseYear nowMonth toks acc = some ds → ds.length = 3
  | [], acc, ds, h => by
    unfold parseDatesGo at h
    split at h
    · rename_i hl
      injection h with h
      subst h
      exact hl
    · cases h
  | [_], acc, ds, h => by
    unfold parseDatesGo at h
    split at h
    · rename_i hl
      injection h with h
      subst h
      exact hl
    · cases h
  | mt :: dt :: rest2, acc, ds, h => by
    unfold parseDatesGo at h
    split at h
    · rename_i hl
      injection h with h
      subst h
      exact hl
    · split at h
      · cases h
      · split at h
        · split at h
          · cases h
          · exact parseDatesGo_length h
        · cases h

theorem parseDatesGo_mem {baseYear nowMonth : Nat} :
    ∀ {toks : List (List Char)} {acc ds : List Date},
      parseDatesGo baseYear nowMonth toks acc = some ds →
      ∀ d ∈ ds, d ∈ acc ∨ (ValidDate d ∧
        d.year = (if nowMonth = 12 ∧ d.month = 1 then baseYear + 1
          else baseYear))
  | [], acc, ds, h => by
    unfold parseDatesGo at h
    split at h
    · injection h with h
      subst h
      exact fun d hd => Or.inl hd
    · cases h
  | [_], acc, ds, h => by
    unfold parseDatesGo at h
    split at h
    · injection h with h
      subst h
      exact fun d hd => Or.inl hd
    · cases h
  | mt :: dt :: rest2, acc, ds, h => by
    unfold parseDatesGo at h
    split at h
    · injection h with h
      subst h
      exact fun d hd => Or.inl hd
    · split at h
      · cases h
      · split at h
        · split at h
          · cases h
          · rename_i d0 hmk
            intro d hd
            obtain ⟨heq, hval⟩ := mkDate_eq_some hmk
            rcases parseDatesGo_mem h d hd with hacc | hgood
            · rw [List.mem_append] at hacc
              rcases hacc with hacc | hsing
              · exact Or.inl hacc
              · rw [List.mem_singleton] at hsing
                subst hsing
                subst heq
                exact Or.inr ⟨hval, rfl⟩
            · exact Or.inr hgood
        · cases h

theorem mem_parse_forecast {lines : List (List Char)} {t : Int}
    {ny nm : Nat} {r : Record} (hr : r ∈ parse_forecast lines t ny nm) :
    ∃ hidx toks dates, findHeader lines = some (hidx, toks) ∧
      parseDatesGo (issuedYear lines ny) nm toks [] = some dates ∧
      ∃ raw ∈ lines.drop (hidx + 1), r ∈ processRow dates t raw := by
  simp only [parse_forecast] at hr
  split at hr
  · exact absurd hr (by simp)
  · rename_i hidx toks hf
    split at hr
    · exact absurd hr (by simp)
    · rename_i dates hd
      rw [List.mem_flatten] at hr
      obtain ⟨l, hl, hrl⟩ := hr
      rw [List.mem_map] at hl
      obtain ⟨raw, hraw, rfl⟩ := hl
      exact ⟨hidx, toks, dates, hf, hd, raw, hraw, hrl⟩

/-- C1: for every parsed bulletin and configured threshold `t`, a cell of
the activity table appears as a record in the parser's output iff its
extracted integer level is at least `t`.  Part 1: every record of
`parse_forecast` has level `≥ t`.  Part 2: a cell whose token parses to
level `kp` and whose row hour is valid yields a record iff `t ≤ kp` — in
particular level `t` is included and level `t - 1` is excluded. -/
theorem claim_C1 (lines : List (List Char)) (t : Int) (ny nm : Nat)
    (hour : Nat) (d : Date) (tok : List Char) (kp : Int)
    (hkp : parseKp? tok = some kp) (hh : hour ≤ 23) :
    (∀ r ∈ parse_forecast lines t ny nm, t ≤ r.kp) ∧
    ((processTok t hour d tok).isSome ↔ t ≤ kp) := by
  constructor
  · intro r hr
    obtain ⟨hidx, toks, dates, hf, hd, raw, hraw, hpr⟩ := mem_parse_forecast hr
    obtain ⟨h, d', tok', hdmem, he⟩ := mem_processRow hpr
    exact (processTok_eq_some he).2.1
  · unfold processTok
    rw [hkp]
    by_cases h1 : t ≤ kp
    · simp [h1, hh]
    · simp [h1]

/-- C1 witness: at threshold 5, the boundary cell of level 5 is included
and the cell of level 4 is excluded. -/
theorem claim_C1_witness :
    ((processTok 5 0 ⟨2024, 10, 12⟩ ("5".data)).isSome ↔ (5 : Int) ≤ 5) ∧
    ((processTok 5 0 ⟨2024, 10, 12⟩ ("4".data)).isSome ↔ (5 : Int) ≤ 4) :=
  ⟨(claim_C1 [] 5 2024 10 0 ⟨2024, 10, 12⟩ ("5".data) 5 (by decide)
      (by decide)).2,
   (claim_C1 [] 5 2024 10 0 ⟨2024, 10, 12⟩ ("4".data) 4 (by decide)
      (by decide)).2⟩

/-- C2: with resolved forecast dates `D0, D1, D2` and threshold 5, the data
row `"00-03UT 3 4 7"` yields exactly one record: column 2, level 7, start
`D2` 00:00 UTC, end `D2` 03:00 UTC.  (`processRow` is exactly the record
set a row contributes to `parse_forecast`.) -/
theorem claim_C2 (D0 D1 D2 : Date) :
    processRow [D0, D1, D2] 5 ("00-03UT 3 4 7".data) =
      [⟨⟨D2, 0⟩, ⟨D2, 3⟩, 7⟩] := by
  with_unfolding_all rfl

/-- C3: every record emitted by `parse_forecast` has its end instant
exactly 3 hours after its start instant in absolute time (so UTC day
boundaries are crossed correctly), and the start instant of a record
built from a column carries that column's forecast date. -/
theorem claim_C3 :
    (∀ (lines : List (List Char)) (t : Int) (ny nm : Nat) (r : Record),
        r ∈ parse_forecast lines t ny nm →
        absHours r.utcEnd = absHours r.utcStart + 3) ∧
    (∀ (t : Int) (h : Nat) (d : Date) (tok : List Char) (r : Record),
        processTok t h d tok = some r → r.utcStart.date = d) := by
  constructor
  · intro lines t ny nm r hr
    obtain ⟨hidx, toks, dates, hf, hd, raw, hraw, hpr⟩ := mem_parse_forecast hr
    obtain ⟨h, d, tok, hdmem, he⟩ := mem_processRow hpr
    obtain ⟨_, _, hh23, hstart, hend⟩ := processTok_eq_some he
    have hval : ValidDate d := by
      rcases parseDatesGo_mem hd d hdmem with habs | ⟨hv, _⟩
      · exact absurd habs (List.not_mem_nil d)
      · exact hv
    rw [hstart, hend]
    exact absHours_addHours3 hval hh23
  · intro t h d tok r he
    rw [(processTok_eq_some he).2.2.2.1]

/-- C3 witness: a concrete bulletin whose row `23-02UT` produces a record
starting 23:00 UTC on Oct 12 and ending 02:00 UTC on Oct 13, with the
absolute-hour difference exactly 3. -/
theorem claim_C3_witness :
    (⟨⟨⟨2024, 10, 12⟩, 23⟩, ⟨⟨2024, 10, 13⟩, 2⟩, 7⟩ : Record) ∈
      parse_forecast
        [":Issued: 2024 Oct 12 0030 UTC".data,
         "NOAA Kp index breakdown Oct 12-Oct 14 2024".data,
         "             Oct 12     Oct 13     Oct 14".data,
         "23-02UT       7          2          2".data]
        5 1999 10 ∧
    absHours (⟨⟨2024, 10, 13⟩, 2⟩ : DateTime) =
      absHours (⟨⟨2024, 10, 12⟩, 23⟩ : DateTime) + 3 :=
  have hmem : (⟨⟨⟨2024, 10, 12⟩, 23⟩, ⟨⟨2024, 10, 13⟩, 2⟩, 7⟩ : Record) ∈
      parse_forecast
        [":Issued: 2024 Oct 12 0030 UTC".data,
         "NOAA Kp index breakdown Oct 12-Oct 14 2024".data,
         "             Oct 12     Oct 13     Oct 14".data,
         "23-02UT       7          2          2".data]
        5 1999 10 := by decide
  ⟨hmem, claim_C3.1 _ 5 1999 10 _ hmem⟩

/-- If the parse emits any record, header discovery and date decoding
succeeded with exactly three dates. -/
theorem parse_ne_nil_resolved {lines : List (List Char)} {t : Int}
    {ny nm : Nat} (hne : parse_forecast lines t ny nm ≠ []) :
    ∃ ds, resolvedDates lines ny nm = some ds ∧ ds.length = 3 := by
  obtain ⟨r, hr⟩ := List.exists_mem_of_ne_nil _ hne
  obtain ⟨hidx, toks, dates, hf, hd, _⟩ := mem_parse_forecast hr
  refine ⟨dates, ?_, parseDatesGo_length hd⟩
  unfold resolvedDates
  rw [hf]
  exact hd

/-- C4 counterexample: a January-issued bulletin whose date header begins
with a December date parses successfully (output non-empty) while its
resolved dates are in strictly DECREASING order at the first step — the
code never checks chronological order (the reverse December→January
roll-over gap). -/
theorem claim_C4_counterexample :
    parse_forecast
      [":Issued: 2025 Jan 02 0030 UTC".data,
       "NOAA Kp index breakdown".data,
       "             Dec 31     Jan 01     Jan 02".data,
       "00-03UT       5          5          5".data] 5 2025 1 ≠ [] ∧
    resolvedDates
      [":Issued: 2025 Jan 02 0030 UTC".data,
       "NOAA Kp index breakdown".data,
       "             Dec 31     Jan 01     Jan 02".data,
       "00-03UT       5          5          5".data] 2025 1 =
      some [⟨2025, 12, 31⟩, ⟨2025, 1, 1⟩, ⟨2025, 1, 2⟩] ∧
    dateLeB ⟨2025, 12, 31⟩ ⟨2025, 1, 1⟩ = false := by
  refine ⟨?_, by decide, by decide⟩
  decide

/-- C4 amended: a successful parse resolves exactly three forecast dates
(excess header tokens are ignored and no chronological-order check is
made), and if three dates cannot be resolved the whole parse returns zero
records. -/
theorem claim_C4_amended (lines : List (List Char)) (t : Int)
    (ny nm : Nat) :
    (parse_forecast lines t ny nm ≠ [] →
      ∃ ds, resolvedDates lines ny nm = some ds ∧ ds.length = 3) ∧
    (resolvedDates lines ny nm = none →
      parse_forecast lines t ny nm = []) := by
  constructor
  · exact parse_ne_nil_resolved
  · intro hnone
    by_contra hne
    obtain ⟨ds, hds, _⟩ := parse_ne_nil_resolved hne
    rw [hnone] at hds
    cases hds

/-- C4 witness: a concrete successfully parsed bulletin resolves exactly
three dates. -/
theorem claim_C4_witness :
    ∃ ds, resolvedDates
      [":Issued: 2024 Oct 12 0030 UTC".data,
       "NOAA Kp index breakdown Oct 12-Oct 14 2024".data,
       "             Oct 12     Oct 13     Oct 14".data,
       "00-03UT       7          2          2".data] 1999 10 =
      some ds ∧ ds.length = 3 :=
  (claim_C4_amended
    [":Issued: 2024 Oct 12 0030 UTC".data,
     "NOAA Kp index breakdown Oct 12-Oct 14 2024".data,
     "             Oct 12     Oct 13     Oct 14".data,
     "00-03UT       7          2          2".data] 5 1999 10).1 (by decide)

/-- C5: each resolved forecast date's year is the base year plus one
exactly when the current UTC month is December and that column's parsed
month is January; in every other combination it is the base year (the
issuance year, or the current UTC year as fallback) — applied
independently per column. -/
theorem claim_C5 (lines : List (List Char)) (ny nm : Nat) (ds : List Date)
    (d : Date) (hds : resolvedDates lines ny nm = some ds) (hd : d ∈ ds) :
    d.year = if nm = 12 ∧ d.month = 1 then issuedYear lines ny + 1
      else issuedYear lines ny := by
  unfold resolvedDates at hds
  rcases hf : findHeader lines with _ | p
  · rw [hf] at hds
    cases hds
  · rw [hf] at hds
    rcases parseDatesGo_mem hds d hd with habs | ⟨_, hy⟩
    · exact absurd habs (List.not_mem_nil d)
    · exact hy

/-- C5 witness: a December-issued bulletin forecasting Dec 31, Jan 1,
Jan 2 gives the January columns the next year. -/
theorem claim_C5_witness :
    (⟨2025, 1, 1⟩ : Date).year =
      (if 12 = 12 ∧ (⟨2025, 1, 1⟩ : Date).month = 1 then
        issuedYear
          [":Issued: 2024 Dec 30 0030 UTC".data,
           "NOAA Kp index breakdown".data,
           "             Dec 31     Jan 01     Jan 02".data,
           "00-03UT       5          5          5".data] 1999 + 1
      else issuedYear
          [":Issued: 2024 Dec 30 0030 UTC".data,
           "NOAA Kp index breakdown".data,
           "             Dec 31     Jan 01     Jan 02".data,
           "00-03UT       5          5          5".data] 1999) :=
  claim_C5
    [":Issued: 2024 Dec 30 0030 UTC".data,
     "NOAA Kp index breakdown".data,
     "             Dec 31     Jan 01     Jan 02".data,
     "00-03UT       5          5          5".data] 1999 12
    [⟨2024, 12, 31⟩, ⟨2025, 1, 1⟩, ⟨2025, 1, 2⟩] ⟨2025, 1, 1⟩
    (by decide) (by decide)

/-- A found result of `windowCheck` carries the examined index, and that
line is non-blank and satisfies the date-header-candidate predicate. -/
theorem windowCheck_found {lines : List (List Char)} {idx j : Nat}
    {toks : List (List Char)}
    (h : windowCheck lines idx = some (some (j, toks))) :
    j = idx ∧ ∃ raw, lines[idx]? = some raw ∧ trim raw ≠ [] ∧
      toks = splitWs (trim raw) ∧
      isDateHeaderCandidate (trim raw) = true := by
  simp only [windowCheck] at h
  split at h
  · exact absurd h (by simp)
  · rename_i raw hl
    split at h
    · exact absurd h (by simp)
    · rename_i hb
      split at h
      · rename_i hlen
        split at h
        · rename_i p0 rest hparts
          split at h
          · rename_i hsome
            injection h with h
            injection h with h
            injection h with hj htoks
            refine ⟨hj.symm, raw, hl, ?_, htoks.symm, ?_⟩
            · intro hnil
              rw [hnil] at hb
              exact hb rfl
            · unfold isDateHeaderCandidate
              rw [hparts]
              rw [hparts] at hlen
              simp only [List.length_cons] at hlen
              simp [hsome]
              omega
          · exact absurd h (by simp)
        · exact absurd h (by simp)
      · exact absurd h (by simp)

/-- A plain-`none` result of `windowCheck` is exactly the blank-line
`continue` branch. -/
theorem windowCheck_blank {lines : List (List Char)} {idx : Nat}
    (h : windowCheck lines idx = none) :
    ∃ raw, lines[idx]? = some raw ∧ trim raw = [] := by
  simp only [windowCheck] at h
  split at h
  · exact absurd h (by simp)
  · rename_i raw hl
    split at h
    · rename_i hb
      exact ⟨raw, hl, by simpa using hb⟩
    · split at h
      · split at h
        · split at h
          · exact absurd h (by simp)
          · exact absurd h (by simp)
        · exact absurd h (by simp)
      · exact absurd h (by simp)

/-- A non-blank line that fails the candidate predicate makes
`windowCheck` stop the scan for this marker. -/
theorem windowCheck_stop_of_bad {lines : List (List Char)} {idx : Nat}
    {raw : List Char} (hl : lines[idx]? = some raw)
    (hnb : trim raw ≠ [])
    (hbad : isDateHeaderCandidate (trim raw) = false) :
    windowCheck lines idx = some none := by
  have hb : (trim raw).isEmpty = false := by
    cases he : (trim raw).isEmpty
    · rfl
    · exact absurd (List.isEmpty_iff.mp he) hnb
  simp only [windowCheck, hl, hb, Bool.false_eq_true, if_false]
  unfold isDateHeaderCandidate at hbad
  rcases hparts : splitWs (trim raw) with _ | ⟨p0, rest⟩
  · simp
  · rw [hparts] at hbad
    have hbad2 : (decide (3 ≤ (p0 :: rest).length) &&
        (month_str_to_int p0).isSome) = false := hbad
    by_cases hlen : 3 ≤ (p0 :: rest).length
    · rw [if_pos hlen]
      rw [decide_eq_true hlen, Bool.true_and] at hbad2
      simp [hbad2]
    · rw [if_neg hlen]

/-- Characterization of a successful window scan: the selected line is at
offset 1, 2 or 3 from the marker, every line strictly between the marker
and it is blank, and the selected line itself is non-blank and satisfies
the candidate predicate. -/
theorem scanWindow_found {lines : List (List Char)} {i j : Nat}
    {toks : List (List Char)} (h : scanWindow lines i = some (j, toks)) :
    (j = i + 1 ∨ j = i + 2 ∨ j = i + 3) ∧
    (∀ k, i < k → k < j → ∃ raw, lines[k]? = some raw ∧ trim raw = []) ∧
    (∃ raw, lines[j]? = some raw ∧ trim raw ≠ [] ∧
      toks = splitWs (trim raw) ∧
      isDateHeaderCandidate (trim raw) = true) := by
  unfold scanWindow at h
  rcases h1 : windowCheck lines (i + 1) with _ | r1
  · rw [h1] at h
    obtain ⟨raw1, hraw1, hblank1⟩ := windowCheck_blank h1
    rcases h2 : windowCheck lines (i + 2) with _ | r2
    · rw [h2] at h
      obtain ⟨raw2, hraw2, hblank2⟩ := windowCheck_blank h2
      rcases h3 : windowCheck lines (i + 3) with _ | r3
      · rw [h3] at h
        exact absurd h (by simp)
      · rw [h3] at h
        have hr3 : r3 = some (j, toks) := h
        subst hr3
        obtain ⟨hj, raw, hl, hnb, htoks, hcand⟩ := windowCheck_found h3
        subst hj
        refine ⟨Or.inr (Or.inr rfl), ?_, raw, hl, hnb, htoks, hcand⟩
        intro k hk1 hk2
        have hk : k = i + 1 ∨ k = i + 2 := by omega
        rcases hk with rfl | rfl
        · exact ⟨raw1, hraw1, hblank1⟩
        · exact ⟨raw2, hraw2, hblank2⟩
    · rw [h2] at h
      have hr2 : r2 = some (j, toks) := h
      subst hr2
      obtain ⟨hj, raw, hl, hnb, htoks, hcand⟩ := windowCheck_found h2
      subst hj
      refine ⟨Or.inr (Or.inl rfl), ?_, raw, hl, hnb, htoks, hcand⟩
      intro k hk1 hk2
      have hk : k = i + 1 := by omega
      subst hk
      exact ⟨raw1, hraw1, hblank1⟩
  · rw [h1] at h
    have hr1 : r1 = some (j, toks) := h
    subst hr1
    obtain ⟨hj, raw, hl, hnb, htoks, hcand⟩ := windowCheck_found h1
    subst hj
    exact ⟨Or.inl rfl, fun k hk1 hk2 => absurd hk2 (by omega),
      raw, hl, hnb, htoks, hcand⟩

/-- A bulletin without a discovered header parses to zero records. -/
theorem parse_forecast_of_findHeader_none {lines : List (List Char)}
    {t : Int} {ny nm : Nat} (hf : findHeader lines = none) :
    parse_forecast lines t ny nm = [] := by
  simp only [parse_forecast, hf]

/-- C6 counterexample: the bulletin's marker line is followed (within the
3-line window, at offset 2) by a line satisfying the claim's selection
predicate, yet the parse returns zero records — because the code only
examines the FIRST non-blank window line (`junk`), and a failing first
non-blank line ends the scan for that marker. -/
theorem claim_C6_counterexample :
    isSubstr headerMarker ("NOAA Kp index breakdown".data) = true ∧
    (["NOAA Kp index breakdown".data, "junk".data,
      "Oct 10 Oct 11 Oct 12".data, "00-03UT 9 9 9".data][2]?) =
      some ("Oct 10 Oct 11 Oct 12".data) ∧
    isDateHeaderCandidate (trim ("Oct 10 Oct 11 Oct 12".data)) = true ∧
    parse_forecast
      ["NOAA Kp index breakdown".data, "junk".data,
       "Oct 10 Oct 11 Oct 12".data, "00-03UT 9 9 9".data] 5 2025 10 =
      [] := by
  refine ⟨by decide, by decide, by decide, ?_⟩
  decide

/-- C6 amended: header discovery scans up to 3 lines after a marker line,
skipping blank lines, and examines only the FIRST non-blank line of the
window: that line is selected iff it has at least 3 whitespace tokens
beginning with a valid month abbreviation; a non-blank line failing the
test ends that marker's window (discovery continues from later marker
lines); if no marker yields a header, the parse reports failure and
returns zero records without raising. -/
theorem claim_C6_amended :
    (∀ (lines : List (List Char)) (i j : Nat) (toks : List (List Char)),
        scanWindow lines i = some (j, toks) →
        (j = i + 1 ∨ j = i + 2 ∨ j = i + 3) ∧
        (∀ k, i < k → k < j →
          ∃ raw, lines[k]? = some raw ∧ trim raw = []) ∧
        (∃ raw, lines[j]? = some raw ∧ trim raw ≠ [] ∧
          toks = splitWs (trim raw) ∧
          isDateHeaderCandidate (trim raw) = true)) ∧
    (∀ (lines : List (List Char)) (i : Nat) (raw : List Char),
        lines[i + 1]? = some raw → trim raw ≠ [] →
        isDateHeaderCandidate (trim raw) = false →
        scanWindow lines i = none) ∧
    (∀ (lines : List (List Char)) (t : Int) (ny nm : Nat),
        findHeader lines = none → parse_forecast lines t ny nm = []) := by
  refine ⟨fun lines i j toks h => scanWindow_found h, ?_, ?_⟩
  · intro lines i raw hl hnb hbad
    have hstop := windowCheck_stop_of_bad hl hnb hbad
    unfold scanWindow
    rw [hstop]
  · intro lines t ny nm hf
    exact parse_forecast_of_findHeader_none hf

/-- C6 witness: a marker whose window holds no valid header line makes the
whole parse return zero records. -/
theorem claim_C6_witness :
    parse_forecast ["NOAA Kp index breakdown".data, "junk".data] 5 2025 10 =
      [] :=
  claim_C6_amended.2.2 ["NOAA Kp index breakdown".data, "junk".data]
    5 2025 10 (by decide)

/-- C7: row- and token-level malformation never aborts the parse (the
embedding is a total function, so nothing can raise): (1) a line whose
trimmed form fails the row pattern contributes no records; (2) a matching
row with fewer value tokens than resolved dates contributes no records;
(3) a value token that does not parse as a number is skipped; (4) the
row's other cells are still processed — removing an unparsable cell
leaves the records of the remaining cells unchanged. -/
theorem claim_C7 :
    (∀ (dates : List Date) (t : Int) (raw : List Char),
        rowPat (trim raw) = false → processRow dates t raw = []) ∧
    (∀ (dates : List Date) (t : Int) (raw timeTok : List Char)
        (kpToks : List (List Char)),
        splitWs (trim raw) = timeTok :: kpToks →
        kpToks.length < dates.length → processRow dates t raw = []) ∧
    (∀ (t : Int) (h : Nat) (d : Date) (tok : List Char),
        parseKp? tok = none → processTok t h d tok = none) ∧
    (∀ (t : Int) (h : Nat) (tok : List Char) (d : Date)
        (pre post : List (List Char × Date)),
        parseKp? tok = none →
        (pre ++ (tok, d) :: post).filterMap
          (fun p => processTok t h p.2 p.1) =
        (pre ++ post).filterMap (fun p => processTok t h p.2 p.1)) := by
  refine ⟨?_, ?_, ?_, ?_⟩
  · intro dates t raw hb
    simp [processRow, hb]
  · intro dates t raw timeTok kpToks hsp hlt
    simp [processRow, hsp, hlt]
  · intro t h d tok hk
    simp [processTok, hk]
  · intro t h tok d pre post hk
    have hnone : processTok t h d tok = none := by simp [processTok, hk]
    simp [List.filterMap_append, List.filterMap_cons, hnone]

/-- C7 witness: a prose line, a truncated row, an unparsable token, and a
row where the unparsable middle cell is dropped while the rest survives. -/
theorem claim_C7_witness :
    processRow [⟨2024, 10, 12⟩] 5 ("prose line".data) = [] ∧
    processRow [⟨2024, 10, 12⟩, ⟨2024, 10, 13⟩] 5 ("00-03UT 7".data) = [] ∧
    processTok 5 0 ⟨2024, 10, 12⟩ ("x".data) = none ∧
    (([] ++ ("x".data, (⟨2024, 10, 12⟩ : Date)) ::
        [("7".data, (⟨2024, 10, 13⟩ : Date))]).filterMap
      (fun p : List Char × Date => processTok 5 0 p.2 p.1) =
      (([] : List (List Char × Date)) ++
        [("7".data, (⟨2024, 10, 13⟩ : Date))]).filterMap
      (fun p : List Char × Date => processTok 5 0 p.2 p.1)) :=
  ⟨claim_C7.1 [⟨2024, 10, 12⟩] 5 ("prose line".data) (by decide),
   claim_C7.2.1 [⟨2024, 10, 12⟩, ⟨2024, 10, 13⟩] 5 ("00-03UT 7".data)
     ("00-03UT".data) [("7".data)] (by decide) (by decide),
   claim_C7.2.2.1 5 0 ⟨2024, 10, 12⟩ ("x".data) (by decide),
   claim_C7.2.2.2 5 0 ("x".data) ⟨2024, 10, 12⟩ []
     [("7".data, ⟨2024, 10, 13⟩)] (by decide)⟩

/-- The sign of a parsed float value is the sign of its numerator. -/
theorem val_nonneg_iff {p : ScaledDec} : 0 ≤ p.val ↔ 0 ≤ p.num := by
  unfold ScaledDec.val
  have h10 : (0 : ℚ) < 10 ^ p.scale := by positivity
  constructor
  · intro h
    by_contra hneg
    push_neg at hneg
    have hv : (p.num : ℚ) / 10 ^ p.scale < 0 :=
      div_neg_of_neg_of_pos (by exact_mod_cast hneg) h10
    linarith
  · intro h
    exact div_nonneg (by exact_mod_cast h) (le_of_lt h10)

/-- On non-negative values, Python truncation toward zero is the floor. -/
theorem pyTrunc_eq_floor {p : ScaledDec} (h : 0 ≤ p.num) :
    pyTrunc p = ⌊p.val⌋ := by
  unfold pyTrunc ScaledDec.val
  rw [if_pos h]
  have hcast : (10 : ℚ) ^ p.scale = ((10 ^ p.scale : ℕ) : ℚ) := by
    push_cast
    ring
  rw [hcast, Rat.floor_intCast_div_natCast]
  obtain ⟨n, hn⟩ := Int.eq_ofNat_of_zero_le h
  rw [hn]
  simp [Int.ofNat_tdiv]

/-- C8: a value token parsing as a non-negative number extracts the
integer level equal to the parsed value truncated toward zero (for
non-negative values, the floor: the level is within 1 below the value);
concretely "4.7" extracts 4 and "5" extracts 5. -/
theorem claim_C8 (tok : List Char) (p : ScaledDec)
    (hp : parseFloat? tok = some p) (hq : 0 ≤ p.val) :
    parseKp? tok = some ⌊p.val⌋ ∧
    ((⌊p.val⌋ : ℚ) ≤ p.val ∧ p.val < ⌊p.val⌋ + 1) ∧
    parseKp? ("4.7".data) = some 4 ∧ parseKp? ("5".data) = some 5 := by
  have hnum : 0 ≤ p.num := val_nonneg_iff.mp hq
  refine ⟨?_, ⟨Int.floor_le _, Int.lt_floor_add_one _⟩, by decide, by decide⟩
  unfold parseKp?
  rw [hp]
  simp [pyTrunc_eq_floor hnum]

/-- C8 witness: the token "4.7" parses to 47/10 and extracts level 4. -/
theorem claim_C8_witness :
    parseKp? ("4.7".data) = some ⌊(ScaledDec.mk 47 1).val⌋ ∧
    ((⌊(ScaledDec.mk 47 1).val⌋ : ℚ) ≤ (ScaledDec.mk 47 1).val ∧
      (ScaledDec.mk 47 1).val < ⌊(ScaledDec.mk 47 1).val⌋ + 1) ∧
    parseKp? ("4.7".data) = some 4 ∧ parseKp? ("5".data) = some 5 :=
  claim_C8 ("4.7".data) ⟨47, 1⟩ (by decide)
    (by norm_num [ScaledDec.val])

/-- C9: with an empty qualifying-period list, `send_email_alert` takes the
guard return of lines 231–233: no message content is produced (no subject,
no body) and the SMTP dispatch step is never reached. -/
theorem claim_C9 (threshold : Int) (sender recipientString : List Char) :
    send_email_alert threshold sender recipientString [] =
      SendOutcome.noSend := rfl

/-- An out-of-range start hour makes every token of the row fail: the
`ValueError` from `dt_time(hour=...)` is caught in the per-token handler. -/
theorem processTok_hour_none {t : Int} {h : Nat} {d : Date}
    {tok : List Char} (hh : 23 < h) : processTok t h d tok = none := by
  have h23 : ¬ h ≤ 23 := by omega
  rcases hk : parseKp? tok with _ | kp
  · simp [processTok, hk]
  · simp [processTok, hk, h23]

/-- A row whose label's leading two digits exceed 23 contributes no
records. -/
theorem processRow_hour_none {dates : List Date} {t : Int}
    {raw timeTok : List Char} {kpToks : List (List Char)}
    (hsp : splitWs (trim raw) = timeTok :: kpToks)
    (hh : 23 < digitsToNat (timeTok.take 2)) :
    processRow dates t raw = [] := by
  simp only [processRow, hsp]
  split
  · rfl
  · split
    · rfl
    · split
      · rfl
      · rw [List.filterMap_eq_nil_iff]
        intro p hp
        exact processTok_hour_none hh

/-- C10: a data row whose time label's leading two digits denote an hour
outside 0–23 (e.g. "25-28UT 7 7 7") raises no exception and emits no
record: the error from building the start instant is caught per token and
the token is skipped, so the whole row contributes nothing. -/
theorem claim_C10 :
    (∀ (t : Int) (h : Nat) (d : Date) (tok : List Char), 23 < h →
        processTok t h d tok = none) ∧
    (∀ (dates : List Date) (t : Int) (raw timeTok : List Char)
        (kpToks : List (List Char)),
        splitWs (trim raw) = timeTok :: kpToks →
        23 < digitsToNat (timeTok.take 2) →
        processRow dates t raw = []) ∧
    (∀ (d0 d1 d2 : Date) (t : Int),
        processRow [d0, d1, d2] t ("25-28UT 7 7 7".data) = []) := by
  refine ⟨fun t h d tok hh => processTok_hour_none hh,
    fun dates t raw timeTok kpToks hsp hh => processRow_hour_none hsp hh,
    fun d0 d1 d2 t => @processRow_hour_none [d0, d1, d2] t
      ("25-28UT 7 7 7".data) ("25-28UT".data)
      ["7".data, "7".data, "7".data] (by decide) (by decide)⟩

/-- C10 witness: the row "25-28UT 7 7 7" with three resolved dates emits
nothing, and each of its tokens is individually skipped. -/
theorem claim_C10_witness :
    processTok 5 25 ⟨2024, 10, 12⟩ ("7".data) = none ∧
    processRow [⟨2024, 10, 12⟩, ⟨2024, 10, 13⟩, ⟨2024, 10, 14⟩] 5
      ("25-28UT 7 7 7".data) = [] :=
  ⟨claim_C10.1 5 25 ⟨2024, 10, 12⟩ ("7".data) (by decide),
   claim_C10.2.1 [⟨2024, 10, 12⟩, ⟨2024, 10, 13⟩, ⟨2024, 10, 14⟩] 5
     ("25-28UT 7 7 7".data) ("25-28UT".data)
     ["7".data, "7".data, "7".data] (by decide) (by decide)⟩

end Aurora
